import Mathlib

/-!
Verification of the PaperIQ heuristic core (`app.py`): the paper-structure
segmentation `analyze_paper_structure`, the summary generator
`generate_comprehensive_summary`, the offline question answerer
`answer_question_offline`, and the upload-gating branch of `main`.

Strings are modelled as `List Char` (Python `str`); all text operations
(`split`, `strip`, `lower`, substring `in`, `find`, slicing) are embedded as
executable functions over `List Char`.
-/

namespace PaperIQ

/-- Character list underlying a string literal. -/
def lit (x : String) : List Char := x.data

/-- ASCII lowercase of one character, as Python `str.lower` acts on ASCII. -/
def lowerChar (c : Char) : Char :=
  if 'A' ≤ c ∧ c ≤ 'Z' then Char.ofNat (c.toNat + 32) else c

/-- Python `str.lower` (ASCII fragment). -/
def lowerL (l : List Char) : List Char := l.map lowerChar

/-- The whitespace characters recognised by Python `str.strip()` / `str.split()`
(ASCII fragment: space, tab, newline, carriage return, vertical tab, form feed). -/
def pyWs (c : Char) : Bool :=
  c == ' ' || c == '\t' || c == '\n' || c == '\r' ||
  c == Char.ofNat 11 || c == Char.ofNat 12

/-- Python `str.strip()` with no arguments: drop whitespace from both ends. -/
def stripL (l : List Char) : List Char :=
  ((l.dropWhile pyWs).reverse.dropWhile pyWs).reverse

/-- Python `str.strip(chars)`: drop characters of the given set from both ends. -/
def stripSet (cs : List Char) (l : List Char) : List Char :=
  ((l.dropWhile (fun c => cs.contains c)).reverse.dropWhile
    (fun c => cs.contains c)).reverse

/-- Python substring test `pat in l`. -/
def containsSub (pat : List Char) : List Char → Bool
  | [] => pat.isEmpty
  | c :: rest => pat.isPrefixOf (c :: rest) || containsSub pat rest

/-- Python `str.find` for a pattern known to occur: index of first occurrence. -/
def subIndex (pat : List Char) : List Char → Nat
  | [] => 0
  | c :: rest => if pat.isPrefixOf (c :: rest) then 0 else subIndex pat rest + 1

/-- Python `str.split()` with no arguments: split on whitespace runs,
discarding empty pieces. -/
def pySplitWs (l : List Char) : List (List Char) :=
  (l.splitOnP pyWs).filter (fun w => w ≠ [])

/-- The line list `[line.strip() for line in text.split('\n') if line.strip()]`
from `analyze_paper_structure` (app.py line 52). -/
def pyLines (text : List Char) : List (List Char) :=
  ((text.splitOn '\n').map stripL).filter (fun l => l ≠ [])

/-- The seven buffered section names of `analyze_paper_structure`, in the
fixed insertion order of the `section_patterns` dict (app.py lines 67-75). -/
inductive SecName where
  | abstract | introduction | methodology | results | discussion
  | conclusion | references
deriving DecidableEq, Repr, Fintype

/-- The `sections` dict (app.py lines 54-64): two string entries and seven
line buffers. -/
structure Sections where
  title : List Char
  authors : List Char
  abstract : List (List Char)
  introduction : List (List Char)
  methodology : List (List Char)
  results : List (List Char)
  discussion : List (List Char)
  conclusion : List (List Char)
  references : List (List Char)
deriving DecidableEq, Repr

/-- The initial `sections` dict: empty strings and empty buffers. -/
def emptySections : Sections :=
  ⟨[], [], [], [], [], [], [], [], []⟩

/-- Read a buffered entry `sections[name]`. -/
def secBuf (secs : Sections) : SecName → List (List Char)
  | .abstract => secs.abstract
  | .introduction => secs.introduction
  | .methodology => secs.methodology
  | .results => secs.results
  | .discussion => secs.discussion
  | .conclusion => secs.conclusion
  | .references => secs.references

/-- Write a buffered entry `sections[name] = b`. -/
def setBuf (secs : Sections) : SecName → List (List Char) → Sections
  | .abstract, b => { secs with abstract := b }
  | .introduction, b => { secs with introduction := b }
  | .methodology, b => { secs with methodology := b }
  | .results, b => { secs with results := b }
  | .discussion, b => { secs with discussion := b }
  | .conclusion, b => { secs with conclusion := b }
  | .references, b => { secs with references := b }

/-- The academic author indicators of app.py line 86. -/
def indicators : List (List Char) :=
  [lit "university", lit "institute", lit "department", lit "college",
   lit "@", lit "email"]

/-- Embeds `any(indicator in line_lower for indicator in [...])` (app.py lines 85-86). -/
def hasIndicator (lineLower : List Char) : Bool :=
  indicators.any (fun ind => containsSub ind lineLower)

/-- The literal alternatives of each section regex (app.py lines 67-75);
every pattern is a plain alternation of literals, so `re.search` is exactly
a substring test against one of the alternatives. -/
def patAlts : SecName → List (List Char)
  | .abstract => [lit "abstract", lit "summary"]
  | .introduction => [lit "introduction", lit "background", lit "motivation"]
  | .methodology => [lit "method", lit "methodology", lit "approach",
      lit "experiment", lit "procedure", lit "materials"]
  | .results => [lit "result", lit "finding", lit "outcome", lit "data",
      lit "experiment"]
  | .discussion => [lit "discussion", lit "analysis", lit "interpretation"]
  | .conclusion => [lit "conclusion", lit "concluding", lit "summary"]
  | .references => [lit "reference", lit "bibliography", lit "citation"]

/-- Embeds `re.search(pattern, line_lower)` for one section's pattern. -/
def matchesPat (sec : SecName) (lineLower : List Char) : Bool :=
  (patAlts sec).any (fun p => containsSub p lineLower)

/-- The iteration order of the `section_patterns` dict. -/
def sectionOrder : List SecName :=
  [.abstract, .introduction, .methodology, .results, .discussion,
   .conclusion, .references]

/-- Position of a section name in `sectionOrder`. -/
def orderIndex : SecName → Nat
  | .abstract => 0
  | .introduction => 1
  | .methodology => 2
  | .results => 3
  | .discussion => 4
  | .conclusion => 5
  | .references => 6

/-- The section-header scan of app.py lines 90-93: the first section (in dict
order) whose pattern matches the lowered line, subject to `len(line) < 150`;
the loop breaks at the first hit. -/
def findSection (lineLower : List Char) (n : Nat) : Option SecName :=
  sectionOrder.find? (fun sec => matchesPat sec lineLower && decide (n < 150))

/-- The title/authors branch of app.py lines 81-87. -/
def updateTitleAuthors (secs : Sections) (i : Nat) (line : List Char) :
    Sections :=
  if i = 0 ∧ 10 < line.length ∧ line.length < 200 then
    { secs with title := line }
  else if i < 5 ∧ hasIndicator (lowerL line) then
    { secs with authors := line }
  else secs

/-- The `current_section` update of app.py lines 90-93. -/
def updateCurrent (cur : Option SecName) (line : List Char) : Option SecName :=
  match findSection (lowerL line) line.length with
  | some sec => some sec
  | none => cur

/-- The content-append step of app.py lines 96-98. -/
def appendContent (secs : Sections) (cur : Option SecName) (line : List Char) :
    Sections :=
  match cur with
  | none => secs
  | some sec =>
    if 20 < line.length then
      if (secBuf secs sec).length < 50 then
        setBuf secs sec (secBuf secs sec ++ [line])
      else secs
    else secs

/-- One iteration of the `for i, line in enumerate(lines)` loop
(app.py lines 77-98). -/
def processLine (st : Sections × Option SecName) (i : Nat) (line : List Char) :
    Sections × Option SecName :=
  let secs := updateTitleAuthors st.1 i line
  let cur := updateCurrent st.2 line
  (appendContent secs cur line, cur)

/-- The whole enumerate loop, carried out from line index `i`. -/
def runLines (i : Nat) (st : Sections × Option SecName) :
    List (List Char) → Sections × Option SecName
  | [] => st
  | l :: ls => runLines (i + 1) (processLine st i l) ls

/-- Embeds `analyze_paper_structure` (app.py lines 50-100). -/
def analyze_paper_structure (text : List Char) : Sections :=
  (runLines 0 (emptySections, none) (pyLines text)).1

/-! Summary generation (`generate_comprehensive_summary`, app.py 102-156) -/

/-- The title part(s) of the summary (app.py lines 109-117): the detected
title, else the first of the first three lines with `10 < len < 200`. -/
def titleParts (text : List Char) (secs : Sections) : List (List Char) :=
  if secs.title ≠ [] then [lit "**📄 Title:** " ++ secs.title]
  else
    match ((pyLines text).take 3).find?
        (fun l => decide (10 < l.length) && decide (l.length < 200)) with
    | some l => [lit "**📄 Title:** " ++ l]
    | none => []

/-- The authors part (app.py lines 120-121). -/
def authorsParts (secs : Sections) : List (List Char) :=
  if secs.authors ≠ [] then [lit "**👥 Authors:** " ++ secs.authors] else []

/-- The `key_points` list (app.py lines 124-142): abstract excerpt plus the
four labelled section bullets. -/
def keyPoints (secs : Sections) : List (List Char) :=
  (if secs.abstract ≠ [] then
    [lit "**Abstract:** " ++
      (List.intercalate (lit " ") (secs.abstract.take 5)).take 200 ++ lit "..."]
   else []) ++
  ([(secs.introduction, lit "Research Focus"),
    (secs.methodology, lit "Method Used"),
    (secs.results, lit "Key Findings"),
    (secs.conclusion, lit "Conclusions")].filterMap
    (fun sd =>
      if sd.1 ≠ [] then
        some (lit "**" ++ sd.2 ++ lit ":** " ++
          (List.intercalate (lit " ") (sd.1.take 3)).take 150 ++ lit "...")
      else none))

/-- Embeds `summary_parts` as it stands just before the sparse-structure check
(app.py lines 106-147). -/
def summaryParts (text : List Char) : List (List Char) :=
  let secs := analyze_paper_structure text
  titleParts text secs ++ authorsParts secs ++
    (if keyPoints secs ≠ [] then
      lit "## 🔍 Key Points" :: (keyPoints secs).map (fun p => lit "• " ++ p)
     else [])

/-- The first-400-characters overview (app.py line 153). -/
def overviewBlock (text : List Char) : List Char :=
  if 400 < text.length then text.take 400 ++ lit "..." else text

/-- Embeds `generate_comprehensive_summary` (app.py lines 102-156). -/
def generate_comprehensive_summary (text : List Char) : List Char :=
  let parts := summaryParts text
  let parts :=
    if parts.length < 3 then
      parts ++ [lit "## 📖 Document Content", overviewBlock text]
    else parts
  List.intercalate (lit "\n\n") parts

/-! Offline question answering (`answer_question_offline`, app.py 158-259) -/

/-- The `simple_questions` dict (app.py lines 164-177), in insertion order;
the two document-dependent entries interpolate the detected authors/title. -/
def simpleQuestions (secs : Sections) : List (List Char × List Char) :=
  [(lit "what is artificial intelligence",
    lit "AI refers to machines that can perform tasks typically requiring human intelligence."),
   (lit "what is ai",
    lit "AI refers to machines that can perform tasks typically requiring human intelligence."),
   (lit "what is machine learning",
    lit "Machine learning is a subset of AI that enables computers to learn without explicit programming."),
   (lit "what is deep learning",
    lit "Deep learning uses neural networks with multiple layers to analyze various data types."),
   (lit "what is neural network",
    lit "Neural networks are computing systems inspired by the human brain that recognize patterns."),
   (lit "what is data science",
    lit "Data science combines statistics, programming, and domain knowledge to extract insights from data."),
   (lit "what is computer vision",
    lit "Computer vision enables computers to interpret and understand visual information from the world."),
   (lit "what is natural language processing",
    lit "NLP enables computers to understand, interpret, and generate human language."),
   (lit "what is robotics",
    lit "Robotics involves designing and operating machines that can perform tasks automatically."),
   (lit "who are the authors",
    lit "Authors: " ++
      (if secs.authors ≠ [] then secs.authors else lit "Not specified in the paper")),
   (lit "what is the title",
    lit "Title: " ++
      (if secs.title ≠ [] then secs.title else lit "Not clearly specified")),
   (lit "what is the abstract",
    lit "The abstract summarizes the paper's main objectives, methods, results, and conclusions.")]

/-- The canned-dictionary scan (app.py lines 180-182): first key that is a
substring of the lowered question wins. -/
def cannedAnswer (qLower : List Char) (secs : Sections) : Option (List Char) :=
  ((simpleQuestions secs).find? (fun kv => containsSub kv.1 qLower)).map
    (fun kv => lit "**🤖 " ++ kv.2 ++ lit "**")

/-- Embeds `any(word in question_lower for word in ws)`. -/
def anyWordIn (ws : List (List Char)) (qLower : List Char) : Bool :=
  ws.any (fun w => containsSub w qLower)

/-- The seven category keyword branches (app.py lines 185-215). -/
def categoryAnswer (qLower : List Char) (secs : Sections) :
    Option (List Char) :=
  if anyWordIn [lit "title", lit "what is the paper about", lit "name of paper"] qLower then
    some (lit "**📄 " ++
      (if secs.title ≠ [] then secs.title else lit "Title not explicitly stated") ++ lit "**")
  else if anyWordIn [lit "author", lit "who wrote", lit "who is the author"] qLower then
    some (lit "**👥 " ++
      (if secs.authors ≠ [] then secs.authors else lit "Authors not specified") ++ lit "**")
  else if anyWordIn [lit "abstract", lit "summary", lit "overview"] qLower then
    some (if secs.abstract ≠ [] then
        lit "**📝 " ++
          ((List.intercalate (lit " ") (secs.abstract.take 3)).take 100 ++ lit "...") ++ lit "**"
      else lit "**📝 Abstract section not found in this paper**")
  else if anyWordIn [lit "method", lit "methodology", lit "approach", lit "how did they"] qLower then
    some (if secs.methodology ≠ [] then
        lit "**🔬 Research methodology details are in the methods section**"
      else lit "**🔬 Methodology section not explicitly identified**")
  else if anyWordIn [lit "result", lit "finding", lit "outcome", lit "what did they find"] qLower then
    some (if secs.results ≠ [] then
        lit "**📊 Key findings and results are detailed in the results section**"
      else lit "**📊 Results section not explicitly identified**")
  else if anyWordIn [lit "conclusion", lit "conclude", lit "what was concluded"] qLower then
    some (if secs.conclusion ≠ [] then
        lit "**💡 Conclusions summarize the research outcomes and implications**"
      else lit "**💡 Conclusion section not explicitly identified**")
  else if anyWordIn [lit "purpose", lit "goal", lit "objective", lit "why", lit "aim"] qLower then
    some (if secs.introduction ≠ [] then
        lit "**🎯 Research objectives are outlined in the introduction section**"
      else lit "**🎯 Research purpose described in the introduction**")
  else none

/-- The "what is / what are / define" branch (app.py lines 217-236); `none`
when the branch falls through without returning. -/
def defineAnswer (qLower : List Char) (text : List Char) : Option (List Char) :=
  if anyWordIn [lit "what is", lit "what are", lit "define"] qLower then
    if containsSub (lit "what is") qLower || containsSub (lit "what are") qLower then
      let termStart :=
        if containsSub (lit "what is") qLower then subIndex (lit "what is") qLower + 8
        else subIndex (lit "what are") qLower + 9
      let term := stripSet [ '?', ' ' ] (qLower.drop termStart)
      if term ≠ [] then
        match (text.splitOn '\n').find? (fun line =>
            containsSub term (lowerL line) &&
              (decide (20 < line.length) && decide (line.length < 300))) with
        | some line =>
          let clean := stripL line
          let clean := if 150 < clean.length then clean.take 150 ++ lit "..." else clean
          some (lit "**📚 " ++ clean ++ lit "**")
        | none =>
          some (lit "**❓ Information about '" ++ term ++ lit "' not found in this paper**")
      else none
    else none
  else none

/-- The early-returning stages of `answer_question_offline` (app.py lines
160-236): canned dictionary, category keywords, definitional lookup. -/
def earlyAnswer (q text : List Char) : Option (List Char) :=
  let qLower := stripL (lowerL q)
  let secs := analyze_paper_structure text
  match cannedAnswer qLower secs with
  | some a => some a
  | none =>
    match categoryAnswer qLower secs with
    | some a => some a
    | none => defineAnswer qLower text

/-- The short-question guidance string (app.py line 240). -/
def guidanceMsg : List Char :=
  lit "**🤖 Please ask specific questions about this research paper's content, methods, or findings**"

/-- The keyword-based line scan (app.py lines 243-256). -/
def keywordScanAnswer (qLower : List Char) (text : List Char) :
    Option (List Char) :=
  let keywords := (pySplitWs qLower).filter (fun w => 3 < w.length)
  let relevant := ((text.splitOn '\n').filter (fun line =>
      keywords.any (fun k => containsSub k (lowerL line)) &&
        (decide (30 < (stripL line).length) &&
          decide ((stripL line).length < 200)))).map stripL
  match relevant with
  | [] => none
  | best :: _ =>
    let best := if 120 < best.length then best.take 120 ++ lit "..." else best
    some (lit "**🔍 " ++ best ++ lit "**")

/-- Embeds `answer_question_offline` (app.py lines 158-259). -/
def answer_question_offline (q text : List Char) : List Char :=
  match earlyAnswer q text with
  | some a => a
  | none =>
    if (pySplitWs q).length ≤ 4 then guidanceMsg
    else
      match keywordScanAnswer (stripL (lowerL q)) text with
      | some a => a
      | none =>
        lit "**❓ Specific answer not found in this paper. Try asking about the title, authors, methods, or results.**"

/-! Upload gating (`main`, app.py 291-321) -/

/-- Outcome of the upload branch of `main`. -/
inductive UploadOutcome where
  | processed (sections : Sections)
  | insufficientText
deriving DecidableEq, Repr

/-- The gate `if text and len(text.strip()) > 100` (app.py lines 291-321):
on success the text is analyzed and stored; otherwise the
extraction-insufficient error is reported and nothing is analyzed. -/
def uploadOutcome (text : List Char) : UploadOutcome :=
  if text ≠ [] ∧ 100 < (stripL text).length then
    .processed (analyze_paper_structure text)
  else .insufficientText

/-! Assignment counting for `analyze_paper_structure`

The title assignment (app.py line 82) executes exactly on the iterations
where its guard `i == 0 and 10 < len(line) < 200` holds, and the authors
assignment (line 87) exactly where the title guard fails and
`i < 5 and any(indicator ...)` holds; both guards depend only on the loop
index and the line, so the number of executed assignments is the number of
enumerated lines satisfying the guard. -/

/-- Guard of the title assignment at enumerated line `(i, l)`. -/
def titleGuard (p : Nat × List Char) : Bool :=
  decide (p.1 = 0) && (decide (10 < p.2.length) && decide (p.2.length < 200))

/-- Guard of the authors assignment at enumerated line `(i, l)`. -/
def authorsGuard (p : Nat × List Char) : Bool :=
  !titleGuard p && (decide (p.1 < 5) && hasIndicator (lowerL p.2))

/-- Number of loop iterations of `analyze_paper_structure` that execute the
title assignment (app.py line 82). -/
def titleAssignCount (text : List Char) : Nat :=
  ((pyLines text).enum.countP titleGuard)

/-- Number of loop iterations of `analyze_paper_structure` that execute the
authors assignment (app.py line 87). -/
def authorsAssignCount (text : List Char) : Nat :=
  ((pyLines text).enum.countP authorsGuard)

/-! Helper lemmas about the segmentation loop -/

theorem secBuf_setBuf (secs : Sections) (sec sec' : SecName)
    (b : List (List Char)) :
    secBuf (setBuf secs sec b) sec' = if sec' = sec then b else secBuf secs sec' := by
  cases sec <;> cases sec' <;> simp [secBuf, setBuf]

theorem setBuf_title (secs : Sections) (sec : SecName) (b : List (List Char)) :
    (setBuf secs sec b).title = secs.title := by
  cases sec <;> rfl

theorem setBuf_authors (secs : Sections) (sec : SecName) (b : List (List Char)) :
    (setBuf secs sec b).authors = secs.authors := by
  cases sec <;> rfl

theorem updateTitleAuthors_secBuf (secs : Sections) (i : Nat) (l : List Char)
    (sec : SecName) :
    secBuf (updateTitleAuthors secs i l) sec = secBuf secs sec := by
  unfold updateTitleAuthors
  split
  · cases sec <;> rfl
  · split
    · cases sec <;> rfl
    · rfl

theorem updateTitleAuthors_title_ne (secs : Sections) (i : Nat) (l : List Char)
    (h : ¬ i = 0) :
    (updateTitleAuthors secs i l).title = secs.title := by
  unfold updateTitleAuthors
  rw [if_neg (fun hc => h hc.1)]
  split <;> rfl

theorem updateTitleAuthors_authors (secs : Sections) (i : Nat) (l : List Char) :
    (updateTitleAuthors secs i l).authors = secs.authors ∨
      (i < 5 ∧ hasIndicator (lowerL l) = true ∧
        (updateTitleAuthors secs i l).authors = l) := by
  unfold updateTitleAuthors
  split
  · left; rfl
  · split
    · rename_i h
      right
      exact ⟨h.1, h.2, rfl⟩
    · left; rfl

theorem appendContent_title (secs : Sections) (cur : Option SecName)
    (l : List Char) :
    (appendContent secs cur l).title = secs.title := by
  cases cur with
  | none => rfl
  | some sec =>
    simp only [appendContent]
    split
    · split
      · exact setBuf_title _ _ _
      · rfl
    · rfl

theorem appendContent_authors (secs : Sections) (cur : Option SecName)
    (l : List Char) :
    (appendContent secs cur l).authors = secs.authors := by
  cases cur with
  | none => rfl
  | some sec =>
    simp only [appendContent]
    split
    · split
      · exact setBuf_authors _ _ _
      · rfl
    · rfl

theorem processLine_fst (st : Sections × Option SecName) (i : Nat)
    (l : List Char) :
    (processLine st i l).1 =
      appendContent (updateTitleAuthors st.1 i l) (updateCurrent st.2 l) l := rfl

theorem processLine_title (st : Sections × Option SecName) (i : Nat)
    (l : List Char) :
    (processLine st i l).1.title = st.1.title ∨
      (i = 0 ∧ 10 < l.length ∧ l.length < 200 ∧
        (processLine st i l).1.title = l) := by
  rw [processLine_fst, appendContent_title]
  unfold updateTitleAuthors
  split
  · rename_i h
    right
    exact ⟨h.1, h.2.1, h.2.2, rfl⟩
  · split
    · left; rfl
    · left; rfl

theorem processLine_authors (st : Sections × Option SecName) (i : Nat)
    (l : List Char) :
    (processLine st i l).1.authors = st.1.authors ∨
      (i < 5 ∧ hasIndicator (lowerL l) = true ∧
        (processLine st i l).1.authors = l) := by
  rw [processLine_fst, appendContent_authors]
  rcases updateTitleAuthors_authors st.1 i l with h | ⟨h5, hil, heq⟩
  · left; exact h
  · right; exact ⟨h5, hil, heq⟩

theorem appendContent_buf_le (secs : Sections) (cur : Option SecName)
    (l : List Char) (h : ∀ sec, (secBuf secs sec).length ≤ 50) :
    ∀ sec, (secBuf (appendContent secs cur l) sec).length ≤ 50 := by
  intro sec
  cases cur with
  | none => exact h sec
  | some sec' =>
    simp only [appendContent]
    split
    · split
      · rename_i hlt
        rw [secBuf_setBuf]
        split
        · rename_i hEq
          subst hEq
          simp only [List.length_append, List.length_singleton]
          omega
        · exact h sec
      · exact h sec
    · exact h sec

theorem appendContent_buf_long (secs : Sections) (cur : Option SecName)
    (l : List Char) (h : ∀ sec q, q ∈ secBuf secs sec → 20 < q.length) :
    ∀ sec q, q ∈ secBuf (appendContent secs cur l) sec → 20 < q.length := by
  intro sec q hq
  cases cur with
  | none => exact h sec q hq
  | some sec' =>
    simp only [appendContent] at hq
    split at hq
    · rename_i h20
      split at hq
      · rw [secBuf_setBuf] at hq
        split at hq
        · rcases List.mem_append.mp hq with hmem | hmem
          · exact h sec' q hmem
          · rw [List.mem_singleton.mp hmem]; exact h20
        · exact h sec q hq
      · exact h sec q hq
    · exact h sec q hq

theorem runLines_buf_le (ls : List (List Char)) :
    ∀ (i : Nat) (st : Sections × Option SecName),
      (∀ sec, (secBuf st.1 sec).length ≤ 50) →
      ∀ sec, (secBuf (runLines i st ls).1 sec).length ≤ 50 := by
  induction ls with
  | nil => intro i st h sec; exact h sec
  | cons l ls ih =>
    intro i st h sec
    rw [runLines]
    refine ih (i + 1) (processLine st i l) ?_ sec
    intro sec'
    rw [processLine_fst]
    refine appendContent_buf_le _ _ _ ?_ sec'
    intro sec''
    rw [updateTitleAuthors_secBuf]
    exact h sec''

theorem runLines_buf_long (ls : List (List Char)) :
    ∀ (i : Nat) (st : Sections × Option SecName),
      (∀ sec q, q ∈ secBuf st.1 sec → 20 < q.length) →
      ∀ sec q, q ∈ secBuf (runLines i st ls).1 sec → 20 < q.length := by
  induction ls with
  | nil => intro i st h; exact h
  | cons l ls ih =>
    intro i st h
    rw [runLines]
    refine ih (i + 1) (processLine st i l) ?_
    intro sec' q hq
    rw [processLine_fst] at hq
    refine appendContent_buf_long _ _ _ ?_ sec' q hq
    intro sec'' q' hq'
    rw [updateTitleAuthors_secBuf] at hq'
    exact h sec'' q' hq'

theorem findSection_eq_none (ll : List Char) (n : Nat)
    (h : ∀ sec : SecName, ¬(matchesPat sec ll = true ∧ n < 150)) :
    findSection ll n = none := by
  rw [findSection, List.find?_eq_none]
  intro sec _
  simp only [Bool.and_eq_true, decide_eq_true_eq, not_and]
  intro h1 h2
  exact h sec ⟨h1, h2⟩

theorem findSection_eq_none_of_noMatch (ll : List Char) (n : Nat)
    (h : ∀ sec : SecName, matchesPat sec ll = false) :
    findSection ll n = none := by
  refine findSection_eq_none ll n ?_
  intro sec hc
  rw [h sec] at hc
  exact Bool.false_ne_true hc.1

theorem runLines_nomatch (ls : List (List Char)) :
    ∀ (i : Nat) (st : Sections × Option SecName),
      st.2 = none →
      (∀ l ∈ ls, findSection (lowerL l) l.length = none) →
      (runLines i st ls).2 = none ∧
        ∀ sec, secBuf (runLines i st ls).1 sec = secBuf st.1 sec := by
  induction ls with
  | nil => intro i st h2 _; exact ⟨h2, fun _ => rfl⟩
  | cons l ls ih =>
    intro i st h2 hls
    have hfs : findSection (lowerL l) l.length = none := hls l (by simp)
    have hcur : updateCurrent st.2 l = none := by
      rw [updateCurrent, hfs, h2]
    have hpl : processLine st i l = (updateTitleAuthors st.1 i l, none) := by
      show (appendContent _ (updateCurrent st.2 l) l, updateCurrent st.2 l) = _
      rw [hcur]
      rfl
    rw [runLines, hpl]
    obtain ⟨ha, hb⟩ := ih (i + 1) (updateTitleAuthors st.1 i l, none) rfl
      (fun l' hl' => hls l' (by simp [hl']))
    refine ⟨ha, fun sec => ?_⟩
    rw [hb sec]
    exact updateTitleAuthors_secBuf _ _ _ _

theorem runLines_abstract_accum (ls : List (List Char)) :
    ∀ (i : Nat) (secs : Sections),
      (∀ l ∈ ls, 20 < l.length ∧
        ∀ sec : SecName, matchesPat sec (lowerL l) = false) →
      (runLines i (secs, some .abstract) ls).1.abstract =
        secs.abstract ++ ls.take (50 - secs.abstract.length) := by
  induction ls with
  | nil => intro i secs _; simp [runLines]
  | cons l ls ih =>
    intro i secs h
    have h20 : 20 < l.length := (h l (by simp)).1
    have hnm : ∀ sec : SecName, matchesPat sec (lowerL l) = false :=
      (h l (by simp)).2
    have hfs : findSection (lowerL l) l.length = none :=
      findSection_eq_none_of_noMatch _ _ hnm
    have hcur : updateCurrent (some SecName.abstract) l = some .abstract := by
      rw [updateCurrent, hfs]
    have htail : ∀ l' ∈ ls, 20 < l'.length ∧
        ∀ sec : SecName, matchesPat sec (lowerL l') = false :=
      fun l' hl' => h l' (by simp [hl'])
    rw [runLines]
    have hpl : processLine (secs, some .abstract) i l =
        (appendContent (updateTitleAuthors secs i l) (some .abstract) l,
          some .abstract) := by
      show (appendContent _ (updateCurrent (some .abstract) l) l,
        updateCurrent (some .abstract) l) = _
      rw [hcur]
    rw [hpl]
    have habs1 : (updateTitleAuthors secs i l).abstract = secs.abstract :=
      updateTitleAuthors_secBuf secs i l .abstract
    by_cases hlen : secs.abstract.length < 50
    · have hlt : (secBuf (updateTitleAuthors secs i l) SecName.abstract).length < 50 := by
        show (updateTitleAuthors secs i l).abstract.length < 50
        rw [habs1]
        exact hlen
      have happ : appendContent (updateTitleAuthors secs i l) (some .abstract) l =
          setBuf (updateTitleAuthors secs i l) .abstract
            (secBuf (updateTitleAuthors secs i l) .abstract ++ [l]) := by
        simp only [appendContent]
        rw [if_pos h20, if_pos hlt]
      rw [happ]
      rw [ih (i + 1) _ htail]
      have hset : (setBuf (updateTitleAuthors secs i l) SecName.abstract
          (secBuf (updateTitleAuthors secs i l) SecName.abstract ++ [l])).abstract =
          secs.abstract ++ [l] := by
        show secBuf (updateTitleAuthors secs i l) SecName.abstract ++ [l] =
          secs.abstract ++ [l]
        rw [show secBuf (updateTitleAuthors secs i l) SecName.abstract =
          (updateTitleAuthors secs i l).abstract from rfl, habs1]
      rw [hset]
      have harith : 50 - secs.abstract.length = (50 - (secs.abstract.length + 1)) + 1 := by
        omega
      rw [List.length_append, List.length_singleton, harith, List.take_succ_cons]
      simp [List.append_assoc]
    · have hge : ¬ (secBuf (updateTitleAuthors secs i l) SecName.abstract).length < 50 := by
        show ¬ (updateTitleAuthors secs i l).abstract.length < 50
        rw [habs1]
        exact hlen
      have happ : appendContent (updateTitleAuthors secs i l) (some .abstract) l =
          updateTitleAuthors secs i l := by
        simp only [appendContent]
        rw [if_pos h20, if_neg hge]
      rw [happ]
      rw [ih (i + 1) _ htail, habs1]
      have h0 : 50 - secs.abstract.length = 0 := by omega
      rw [h0]
      simp

theorem runLines_title_stable (ls : List (List Char)) :
    ∀ (i : Nat) (st : Sections × Option SecName), 1 ≤ i →
      (runLines i st ls).1.title = st.1.title := by
  induction ls with
  | nil => intro i st _; rfl
  | cons l ls ih =>
    intro i st hi
    rw [runLines, ih (i + 1) _ (by omega), processLine_fst, appendContent_title,
      updateTitleAuthors_title_ne _ _ _ (by omega)]

theorem titleGuard_iff (i : Nat) (l : List Char) :
    titleGuard (i, l) = true ↔ (i = 0 ∧ 10 < l.length ∧ l.length < 200) := by
  simp [titleGuard, and_assoc]

theorem authorsGuard_iff (i : Nat) (l : List Char) :
    authorsGuard (i, l) = true ↔
      (¬(i = 0 ∧ 10 < l.length ∧ l.length < 200) ∧
        (i < 5 ∧ hasIndicator (lowerL l) = true)) := by
  rw [authorsGuard, Bool.and_eq_true, Bool.not_eq_true', Bool.and_eq_true,
    ← Bool.not_eq_true, titleGuard_iff]
  simp

theorem processLine_authors_guard (st : Sections × Option SecName) (i : Nat)
    (l : List Char) :
    (processLine st i l).1.authors =
      (if authorsGuard (i, l) = true then l else st.1.authors) := by
  rw [processLine_fst, appendContent_authors]
  unfold updateTitleAuthors
  by_cases ht : i = 0 ∧ 10 < l.length ∧ l.length < 200
  · rw [if_pos ht]
    have hg : authorsGuard (i, l) = false := by
      rw [← Bool.not_eq_true, authorsGuard_iff]
      tauto
    rw [hg]
    rfl
  · rw [if_neg ht]
    by_cases ha : i < 5 ∧ hasIndicator (lowerL l) = true
    · rw [if_pos ha]
      have hg : authorsGuard (i, l) = true := (authorsGuard_iff i l).mpr ⟨ht, ha⟩
      rw [hg]
      rfl
    · rw [if_neg ha]
      have hg : authorsGuard (i, l) = false := by
        rw [← Bool.not_eq_true, authorsGuard_iff]
        tauto
      rw [hg]
      rfl

theorem getLast?_getD_cons (x : List Char) (xs : List (List Char))
    (d : List Char) :
    (((x :: xs).getLast?).getD d) = ((xs.getLast?).getD x) := by
  induction xs generalizing x d with
  | nil => rfl
  | cons y ys ih =>
    rw [List.getLast?_cons_cons, ih y d, ih y x]

theorem runLines_authors_last (ls : List (List Char)) :
    ∀ (i : Nat) (st : Sections × Option SecName),
      (runLines i st ls).1.authors =
        ((((List.enumFrom i ls).filter authorsGuard).map Prod.snd).getLast?).getD
          st.1.authors := by
  induction ls with
  | nil => intro i st; rfl
  | cons l tail ih =>
    intro i st
    by_cases hg : authorsGuard (i, l) = true
    · have hpa : (processLine st i l).1.authors = l := by
        rw [processLine_authors_guard, if_pos hg]
      rw [runLines, ih (i + 1) (processLine st i l), hpa,
        show List.enumFrom i (l :: tail) = (i, l) :: List.enumFrom (i + 1) tail
          from rfl,
        List.filter_cons, if_pos hg, List.map_cons, getLast?_getD_cons]
    · have hpa : (processLine st i l).1.authors = st.1.authors := by
        rw [processLine_authors_guard, if_neg hg]
      rw [runLines, ih (i + 1) (processLine st i l), hpa,
        show List.enumFrom i (l :: tail) = (i, l) :: List.enumFrom (i + 1) tail
          from rfl,
        List.filter_cons, if_neg hg]

theorem titleGuard_false_of_pos (k : Nat) (x : List Char) (hk : 1 ≤ k) :
    titleGuard (k, x) = false := by
  simp only [titleGuard, Bool.and_eq_false_iff, decide_eq_false_iff_not]
  left
  omega

theorem countP_titleGuard_enumFrom (l : List (List Char)) :
    ∀ k, 1 ≤ k → (List.enumFrom k l).countP titleGuard = 0 := by
  induction l with
  | nil => intro k _; rfl
  | cons x xs ih =>
    intro k hk
    show ((k, x) :: List.enumFrom (k + 1) xs).countP titleGuard = 0
    rw [List.countP_cons, titleGuard_false_of_pos k x hk, ih (k + 1) (by omega)]
    rfl

theorem countP_authorsGuard_enumFrom (l : List (List Char)) :
    ∀ k, (List.enumFrom k l).countP authorsGuard ≤ 5 - k := by
  induction l with
  | nil => intro k; simp [List.enumFrom]
  | cons x xs ih =>
    intro k
    show ((k, x) :: List.enumFrom (k + 1) xs).countP authorsGuard ≤ 5 - k
    rw [List.countP_cons]
    have hih := ih (k + 1)
    have hone : (if (true = true) then (1 : Nat) else 0) = 1 := rfl
    have hzero : (if (false = true) then (1 : Nat) else 0) = 0 := rfl
    by_cases hk : k < 5
    · by_cases hg : authorsGuard (k, x) = true
      · rw [hg, hone]; omega
      · rw [Bool.not_eq_true] at hg
        rw [hg, hzero]
        omega
    · have hg : authorsGuard (k, x) = false := by
        simp only [authorsGuard, Bool.and_eq_false_iff, decide_eq_false_iff_not]
        right; left
        omega
      rw [hg, hzero]
      omega

theorem titleParts_length_le (text : List Char) (secs : Sections) :
    (titleParts text secs).length ≤ 1 := by
  unfold titleParts
  split
  · simp
  · split <;> simp

theorem authorsParts_length_le (secs : Sections) :
    (authorsParts secs).length ≤ 1 := by
  unfold authorsParts
  split <;> simp

/-! Claim theorems -/

/-- C1, counterexample: the line "summary" (length 7 < 150) matches both the
abstract pattern and the conclusion pattern, yet the section scan assigns
`abstract` — the FIRST matching pattern in enumeration order, because the
loop at app.py line 93 breaks after the first match — and subsequent content
lands in the abstract buffer, not the conclusion buffer predicted by the
last-match reading. -/
theorem C1_counterexample :
    matchesPat .abstract (lowerL (lit "summary")) = true ∧
    matchesPat .conclusion (lowerL (lit "summary")) = true ∧
    (lit "summary").length < 150 ∧
    findSection (lowerL (lit "summary")) (lit "summary").length =
      some SecName.abstract ∧
    SecName.abstract ≠ SecName.conclusion ∧
    (analyze_paper_structure (lit "summary\nqqqqqqqqqqqqqqqqqqqq1")).abstract =
      [lit "qqqqqqqqqqqqqqqqqqqq1"] ∧
    (analyze_paper_structure (lit "summary\nqqqqqqqqqqqqqqqqqqqq1")).conclusion =
      [] := by
  decide

/-- C1 (amended): for every line of length < 150, the section assigned as
`current_section` is the FIRST-matching pattern in the fixed enumeration
order (abstract, introduction, methodology, results, discussion, conclusion,
references): the scan breaks after the first match (app.py line 93). -/
theorem C1_amended_first_match_wins (lineLower : List Char) (n : Nat)
    (sec : SecName)
    (h1 : matchesPat sec lineLower = true) (h2 : n < 150)
    (h3 : ∀ sec' : SecName, orderIndex sec' < orderIndex sec →
      matchesPat sec' lineLower = false) :
    findSection lineLower n = some sec := by
  have hd : decide (n < 150) = true := decide_eq_true h2
  cases sec with
  | abstract =>
    simp [findSection, sectionOrder, List.find?, h1, hd]
  | introduction =>
    have e0 := h3 .abstract (by decide)
    simp [findSection, sectionOrder, List.find?, e0, h1, hd]
  | methodology =>
    have e0 := h3 .abstract (by decide)
    have e1 := h3 .introduction (by decide)
    simp [findSection, sectionOrder, List.find?, e0, e1, h1, hd]
  | results =>
    have e0 := h3 .abstract (by decide)
    have e1 := h3 .introduction (by decide)
    have e2 := h3 .methodology (by decide)
    simp [findSection, sectionOrder, List.find?, e0, e1, e2, h1, hd]
  | discussion =>
    have e0 := h3 .abstract (by decide)
    have e1 := h3 .introduction (by decide)
    have e2 := h3 .methodology (by decide)
    have e3 := h3 .results (by decide)
    simp [findSection, sectionOrder, List.find?, e0, e1, e2, e3, h1, hd]
  | conclusion =>
    have e0 := h3 .abstract (by decide)
    have e1 := h3 .introduction (by decide)
    have e2 := h3 .methodology (by decide)
    have e3 := h3 .results (by decide)
    have e4 := h3 .discussion (by decide)
    simp [findSection, sectionOrder, List.find?, e0, e1, e2, e3, e4, h1, hd]
  | references =>
    have e0 := h3 .abstract (by decide)
    have e1 := h3 .introduction (by decide)
    have e2 := h3 .methodology (by decide)
    have e3 := h3 .results (by decide)
    have e4 := h3 .discussion (by decide)
    have e5 := h3 .conclusion (by decide)
    simp [findSection, sectionOrder, List.find?, e0, e1, e2, e3, e4, e5, h1, hd]

/-- Witness for C1 (amended) at the concrete line "the results show". -/
theorem C1_amended_first_match_wins_witness :
    matchesPat .results (lowerL (lit "the results show")) = true ∧
    (lit "the results show").length < 150 ∧
    findSection (lowerL (lit "the results show")) (lit "the results show").length =
      some SecName.results :=
  ⟨by decide, by decide,
    C1_amended_first_match_wins _ _ _ (by decide) (by decide) (by decide)⟩

/-- C2: every buffered section of the mapping returned by
`analyze_paper_structure` holds at most 50 lines, for every input text
(the cap at app.py line 97). -/
theorem C2_section_buffers_at_most_50 :
    ∀ (text : List Char) (sec : SecName),
      (secBuf (analyze_paper_structure text) sec).length ≤ 50 := by
  intro text sec
  unfold analyze_paper_structure
  refine runLines_buf_le (pyLines text) 0 (emptySections, none) ?_ sec
  intro s
  cases s <;> decide

/-- C3, counterexample: in one run on this three-line document, the guard of
the authors assignment (app.py lines 85-87) holds at both line index 1 and
line index 2, so `sections['authors']` is assigned twice — refuting
"assigned at most once"; the final value is the later line. -/
theorem C3_counterexample :
    authorsAssignCount
      (lit "University A paper title line\nDepartment of Physics here\nInstitute of Chemistry there") = 2 ∧
    ¬ authorsAssignCount
      (lit "University A paper title line\nDepartment of Physics here\nInstitute of Chemistry there") ≤ 1 ∧
    (analyze_paper_structure
      (lit "University A paper title line\nDepartment of Physics here\nInstitute of Chemistry there")).authors =
      lit "Institute of Chemistry there" := by
  decide

/-- C3 (amended): `sections['title']` is assigned at most once, only from
line index 0 when 10 < length < 200; `sections['authors']` may be assigned
several times — at most 5, once per qualifying line, where a qualifying line
is one whose index is below 5, whose lowered form contains an academic
indicator, and which is not taken as title — and the final value of
`sections['authors']` is the LAST qualifying line (the empty string when
there is none). -/
theorem C3_amended_assignment_discipline : ∀ text : List Char,
    titleAssignCount text ≤ 1 ∧
    authorsAssignCount text ≤ 5 ∧
    ((analyze_paper_structure text).title = [] ∨
      ((pyLines text).get? 0 = some ((analyze_paper_structure text).title) ∧
        10 < (analyze_paper_structure text).title.length ∧
        (analyze_paper_structure text).title.length < 200)) ∧
    ((analyze_paper_structure text).authors =
      (((((pyLines text).enum.filter authorsGuard)).map Prod.snd).getLast?).getD [] ∧
      ∀ p ∈ (pyLines text).enum.filter authorsGuard,
        ¬(p.1 = 0 ∧ 10 < p.2.length ∧ p.2.length < 200) ∧
        p.1 < 5 ∧ hasIndicator (lowerL p.2) = true) := by
  intro text
  refine ⟨?_, ?_, ?_, ?_⟩
  · unfold titleAssignCount
    cases hl : pyLines text with
    | nil => decide
    | cons x xs =>
      rw [show (x :: xs).enum = (0, x) :: List.enumFrom 1 xs from rfl]
      rw [List.countP_cons, countP_titleGuard_enumFrom xs 1 le_rfl]
      split <;> omega
  · have h := countP_authorsGuard_enumFrom (pyLines text) 0
    simpa [authorsAssignCount] using h
  · unfold analyze_paper_structure
    cases hl : pyLines text with
    | nil => left; rfl
    | cons l ls =>
      rw [runLines]
      rw [runLines_title_stable ls 1 (processLine (emptySections, none) 0 l) le_rfl]
      rcases processLine_title (emptySections, none) 0 l with hp | ⟨_, h10, h200, heq⟩
      · left
        rw [hp]
        rfl
      · right
        rw [heq]
        exact ⟨by rw [List.get?_cons_zero], h10, h200⟩
  · constructor
    · unfold analyze_paper_structure
      rw [runLines_authors_last (pyLines text) 0 (emptySections, none)]
      rfl
    · intro p hp
      have hg : authorsGuard p = true := List.of_mem_filter hp
      obtain ⟨i, l⟩ := p
      have hprop := (authorsGuard_iff i l).mp hg
      exact ⟨hprop.1, hprop.2.1, hprop.2.2⟩

/-- C4: for a document whose non-empty trimmed lines are the line "Abstract"
followed by more than 5 content lines, each longer than 20 characters and
matching none of the seven section patterns, `sections['abstract']` is
exactly those content lines in original order, truncated at the 50-entry
cap. -/
theorem C4_abstract_roundtrip (text : List Char) (content : List (List Char))
    (h1 : pyLines text = lit "Abstract" :: content)
    (h2 : 5 < content.length)
    (h3 : ∀ l ∈ content, 20 < l.length ∧
      ∀ sec : SecName, matchesPat sec (lowerL l) = false) :
    (analyze_paper_structure text).abstract = content.take 50 := by
  unfold analyze_paper_structure
  rw [h1, runLines]
  have hstep : processLine (emptySections, none) 0 (lit "Abstract") =
      (emptySections, some .abstract) := by decide
  rw [hstep]
  have h := runLines_abstract_accum content 1 emptySections h3
  simpa [emptySections] using h

/-- Witness for C4 at a concrete six-content-line document. -/
theorem C4_abstract_roundtrip_witness :
    (analyze_paper_structure
      (lit "Abstract\nqqqqqqqqqqqqqqqqqqqq1\nqqqqqqqqqqqqqqqqqqqq2\nqqqqqqqqqqqqqqqqqqqq3\nqqqqqqqqqqqqqqqqqqqq4\nqqqqqqqqqqqqqqqqqqqq5\nqqqqqqqqqqqqqqqqqqqq6")).abstract =
      [lit "qqqqqqqqqqqqqqqqqqqq1", lit "qqqqqqqqqqqqqqqqqqqq2",
       lit "qqqqqqqqqqqqqqqqqqqq3", lit "qqqqqqqqqqqqqqqqqqqq4",
       lit "qqqqqqqqqqqqqqqqqqqq5", lit "qqqqqqqqqqqqqqqqqqqq6"].take 50 :=
  C4_abstract_roundtrip _ _ (by decide) (by decide) (by decide)

/-- C5: when no non-empty trimmed line matches any of the seven section
patterns with length < 150, `generate_comprehensive_summary` has fewer than
3 summary parts before the sparse-structure check, so its output is the
joined parts followed by the "Document Content" header and the overview
block, which is the first 400 characters of the raw text with "..." appended
when the text is longer. -/
theorem C5_sparse_structure_fallback (text : List Char)
    (h : ∀ l ∈ pyLines text, ∀ sec : SecName,
      ¬(matchesPat sec (lowerL l) = true ∧ l.length < 150)) :
    (summaryParts text).length < 3 ∧
    generate_comprehensive_summary text =
      List.intercalate (lit "\n\n")
        (summaryParts text ++ [lit "## 📖 Document Content", overviewBlock text]) ∧
    overviewBlock text =
      (if 400 < text.length then text.take 400 ++ lit "..." else text) := by
  have hbuf : ∀ sec, secBuf (analyze_paper_structure text) sec = [] := by
    intro sec
    unfold analyze_paper_structure
    have hres := (runLines_nomatch (pyLines text) 0 (emptySections, none) rfl
      (fun l hl => findSection_eq_none _ _ (h l hl))).2 sec
    rw [hres]
    cases sec <;> rfl
  have ha : (analyze_paper_structure text).abstract = [] := hbuf .abstract
  have hi : (analyze_paper_structure text).introduction = [] := hbuf .introduction
  have hm : (analyze_paper_structure text).methodology = [] := hbuf .methodology
  have hr : (analyze_paper_structure text).results = [] := hbuf .results
  have hc : (analyze_paper_structure text).conclusion = [] := hbuf .conclusion
  have hkp : keyPoints (analyze_paper_structure text) = [] := by
    simp [keyPoints, ha, hi, hm, hr, hc]
  have hsp : summaryParts text =
      titleParts text (analyze_paper_structure text) ++
        authorsParts (analyze_paper_structure text) := by
    simp [summaryParts, hkp]
  have hlen : (summaryParts text).length < 3 := by
    rw [hsp, List.length_append]
    have h1 := titleParts_length_le text (analyze_paper_structure text)
    have h2 := authorsParts_length_le (analyze_paper_structure text)
    omega
  refine ⟨hlen, ?_, rfl⟩
  simp only [generate_comprehensive_summary]
  rw [if_pos hlen]

/-- Witness for C5 at a concrete pattern-free document. -/
theorem C5_sparse_structure_fallback_witness :
    (summaryParts (lit "the quick brown fox jumps over the lazy dog near the river today")).length < 3 ∧
    generate_comprehensive_summary
      (lit "the quick brown fox jumps over the lazy dog near the river today") =
      List.intercalate (lit "\n\n")
        (summaryParts (lit "the quick brown fox jumps over the lazy dog near the river today") ++
          [lit "## 📖 Document Content",
           overviewBlock (lit "the quick brown fox jumps over the lazy dog near the river today")]) ∧
    overviewBlock (lit "the quick brown fox jumps over the lazy dog near the river today") =
      (if 400 < (lit "the quick brown fox jumps over the lazy dog near the river today").length then
        (lit "the quick brown fox jumps over the lazy dog near the river today").take 400 ++ lit "..."
       else lit "the quick brown fox jumps over the lazy dog near the river today") :=
  C5_sparse_structure_fallback _ (by decide)

/-- C6: for every document text, the question "what is AI" hits the canned
dictionary entry (exact substring match of the lowered question, app.py
lines 180-182) and the answer is exactly the fixed canned string; in
particular any two document texts give the same answer. -/
theorem C6_canned_ai_answer :
    (∀ text : List Char,
      answer_question_offline (lit "what is AI") text =
        lit "**🤖 AI refers to machines that can perform tasks typically requiring human intelligence.**") ∧
    (∀ t1 t2 : List Char,
      answer_question_offline (lit "what is AI") t1 =
        answer_question_offline (lit "what is AI") t2) := by
  constructor
  · intro text
    rfl
  · intro t1 t2
    rfl

/-- C7, counterexample: "what is ai" is a 3-word question, yet
`answer_question_offline` returns the canned AI definition (the dictionary
scan at app.py lines 180-182 returns before the short-question check), not
the generic "ask something specific" guidance string. -/
theorem C7_counterexample :
    (pySplitWs (lit "what is ai")).length = 3 ∧
    answer_question_offline (lit "what is ai") (lit "document text") =
      lit "**🤖 AI refers to machines that can perform tasks typically requiring human intelligence.**" ∧
    answer_question_offline (lit "what is ai") (lit "document text") ≠
      guidanceMsg := by
  refine ⟨by decide, rfl, by decide⟩

/-- C7 (amended): a 3-word question never reaches the keyword-based line
scan: the answer is the one produced by the earlier stages (canned
dictionary, category keywords, definitional lookup) when one of them fires,
and the generic "ask something specific" guidance string otherwise. -/
theorem C7_amended_short_question (q text : List Char)
    (h : (pySplitWs q).length = 3) :
    answer_question_offline q text = (earlyAnswer q text).getD guidanceMsg := by
  unfold answer_question_offline
  cases he : earlyAnswer q text with
  | some a => simp [he]
  | none => simp [he, h]

/-- Witness for C7 (amended) at a concrete 3-word question that matches no
earlier stage, hence gets the guidance string. -/
theorem C7_amended_short_question_witness :
    (pySplitWs (lit "tell me everything")).length = 3 ∧
    answer_question_offline (lit "tell me everything") (lit "document text") =
      (earlyAnswer (lit "tell me everything") (lit "document text")).getD guidanceMsg ∧
    answer_question_offline (lit "tell me everything") (lit "document text") =
      guidanceMsg :=
  ⟨by decide, C7_amended_short_question _ _ (by decide), by decide⟩

/-- C8: `analyze_paper_structure` is deterministic and idempotent — two runs
on identical input text yield identical Sections mappings. -/
theorem C8_deterministic (t1 t2 : List Char) (h : t1 = t2) :
    analyze_paper_structure t1 = analyze_paper_structure t2 := by
  rw [h]

/-- Witness for C8 at a concrete text. -/
theorem C8_deterministic_witness :
    analyze_paper_structure (lit "Abstract\nqqqqqqqqqqqqqqqqqqqq1") =
      analyze_paper_structure (lit "Abstract\nqqqqqqqqqqqqqqqqqqqq1") :=
  C8_deterministic _ _ rfl

/-- C9: when the extracted text is empty or its stripped length does not
exceed the 100-character minimum, the upload flow reports the
extraction-insufficient outcome (app.py line 321) and does not analyze or
store the text. -/
theorem C9_insufficient_text_rejected (text : List Char)
    (h : text = [] ∨ (stripL text).length ≤ 100) :
    uploadOutcome text = .insufficientText := by
  unfold uploadOutcome
  rw [if_neg]
  rintro ⟨hne, hlen⟩
  rcases h with h | h
  · exact hne h
  · omega

/-- Witness for C9 at a concrete short text. -/
theorem C9_insufficient_text_rejected_witness :
    uploadOutcome (lit "too short") = .insufficientText :=
  C9_insufficient_text_rejected _ (Or.inr (by decide))

/-- C10: every line stored in any section buffer by
`analyze_paper_structure` has length strictly greater than 20; consequently
a section-heading line longer than 20 characters is itself appended as the
first entry of the section it introduces (e.g. "Materials and Methods of
the Study"), while a short heading such as the 8-character line "Abstract"
never appears in any buffer. -/
theorem C10_buffer_lines_longer_than_20 :
    (∀ (text : List Char) (sec : SecName) (l : List Char),
      l ∈ secBuf (analyze_paper_structure text) sec → 20 < l.length) ∧
    (analyze_paper_structure
      (lit "Materials and Methods of the Study\nthe experimental protocol follows here")).methodology =
      [lit "Materials and Methods of the Study",
       lit "the experimental protocol follows here"] ∧
    (∀ (text : List Char) (sec : SecName),
      lit "Abstract" ∉ secBuf (analyze_paper_structure text) sec) := by
  have hlong : ∀ (text : List Char) (sec : SecName) (l : List Char),
      l ∈ secBuf (analyze_paper_structure text) sec → 20 < l.length := by
    intro text sec l hl
    unfold analyze_paper_structure at hl
    refine runLines_buf_long (pyLines text) 0 (emptySections, none) ?_ sec l hl
    intro s q hq
    exfalso
    cases s <;> simp [secBuf, emptySections] at hq
  refine ⟨hlong, by decide, ?_⟩
  intro text sec hmem
  have := hlong text sec _ hmem
  simp [lit] at this

/-- Witness for C10: the heading line stored in the methodology buffer of
the concrete document is indeed longer than 20 characters. -/
theorem C10_buffer_lines_longer_than_20_witness :
    20 < (lit "Materials and Methods of the Study").length :=
  C10_buffer_lines_longer_than_20.1
    (lit "Materials and Methods of the Study\nthe experimental protocol follows here")
    .methodology (lit "Materials and Methods of the Study") (by decide)

end PaperIQ
